import Mathlib

/-!
Verification of the attendance ledger and analytics aggregation model of the
attendance repository (server.js, dashboard-charts.js, the advanced-reporting
and SuperDatabase modules).

Modelling conventions:
* A stored attendance record is a `Record`; its `timestamp` field holds the
  outcome of JavaScript `new Date(isoString)` parsing: `some ms` for a valid
  date at epoch-millisecond `ms`, `none` for an Invalid Date (an unparseable
  timestamp).  Arithmetic on an Invalid Date yields NaN in JavaScript; NaN is
  modelled by `none` and every NaN comparison is `false`, as in JavaScript.
* `action` is a plain string, exactly as in the source (the server stores
  whatever string the request carries).
* Hours and calendar dates are computed at UTC offset 0 for non-negative
  epoch times: `getHours` models `Date.prototype.getHours` and `toDateKey`
  models the equivalence classes of `Date.prototype.toDateString` (two valid
  timestamps get the same key iff they print the same calendar date).
-/

namespace Attendance

/-- Epoch milliseconds of a parsed JavaScript `Date`; `none` is Invalid Date. -/
abbrev JSDate := Option Int

def msPerHour : Int := 3600000

def msPerDay : Int := 86400000

/-- Models `new Date(t).getHours()` (UTC offset 0, non-negative epoch times):
`none` (NaN) for an Invalid Date, otherwise the hour of day, always `< 24`. -/
def getHours (d : JSDate) : Option Nat :=
  d.map (fun ms => ms.toNat / 3600000 % 24)

/-- Models the equivalence classes of `new Date(t).toDateString()`: the UTC day
index for a valid date, `none` for the single "Invalid Date" string. -/
def toDateKey (d : JSDate) : Option Nat :=
  d.map (fun ms => ms.toNat / 86400000)

/-- An attendance event as stored by `POST /api/attendance` in server.js. -/
structure Record where
  id : Int
  userId : Int
  username : String
  action : String
  timestamp : JSDate
  location : String
deriving DecidableEq, Repr

/-- Models `app.post('/api/attendance')` (server.js:177-201): builds the record
`{id: Date.now(), userId, username, action, timestamp: now, location: 'Office'}`
with NO validation of `action`, pushes it at the end of the stored collection
and returns it.  The activity-log side write is outside the modelled state. -/
def recordEvent (attendance : List Record) (now : Int) (userId : Int)
    (username : String) (action : String) : Record × List Record :=
  let record : Record :=
    { id := now, userId := userId, username := username, action := action,
      timestamp := some now, location := "Office" }
  (record, attendance ++ [record])

/-- Models `app.get('/api/attendance')` (server.js:168-175): returns the stored
collection unchanged, in insertion order. -/
def fetchAll (attendance : List Record) : List Record := attendance

/-- Models the `attendance` entry of `SuperDatabase.validationRules` together
with `validateData` (src/unnamed/part_002:17-97), specialised to the typed
record: the `userId` checks (required, number) always pass on the typed model;
the remaining field checks are reproduced in rule order. -/
def validateAttendance (r : Record) : List String :=
  (if r.username = "" then ["username is required"]
   else if r.username.length < 1 then ["username must be at least 1 characters"]
   else [])
  ++ (if r.action = "" then ["action is required"]
      else if r.action = "sign-in" ∨ r.action = "sign-out" then []
      else ["action must be one of: sign-in, sign-out"])
  ++ (match r.timestamp with
      | none => ["timestamp must be a valid date"]
      | some _ => [])
  ++ (if r.location.length > 100 then ["location must not exceed 100 characters"]
      else [])

/-- Models `min(75 + min(todayRecords.length * 2, 25), 100)`, i.e.
`calculateProductivityScore` (dashboard-charts.js:502-507). -/
def calculateProductivityScore (todayCount : Nat) : Nat :=
  min (75 + min (todayCount * 2) 25) 100

/-- Models `new Date(r.timestamp) >= bound` on a concrete lower bound: `false`
for an Invalid Date (NaN comparison), otherwise ordinary comparison. -/
def jsGeMs (t : JSDate) (bound : Int) : Bool :=
  match t with
  | some ms => bound ≤ ms
  | none => false

/-- Weekly branch of `app.get('/api/reports/:type')` (server.js:278-283):
keeps records with `new Date(r.timestamp) >= now - 7 days`. -/
def weeklyFilter (records : List Record) (now : Int) : List Record :=
  records.filter (fun r => jsGeMs r.timestamp (now - 7 * msPerDay))

/-- Monthly branch of the reports route (server.js:284-289): 30-day bound. -/
def monthlyFilter (records : List Record) (now : Int) : List Record :=
  records.filter (fun r => jsGeMs r.timestamp (now - 30 * msPerDay))

/-- Daily branch of the reports route (server.js:272-277): records whose
`toDateString()` equals today's; an Invalid Date never equals a real date. -/
def dailyFilter (records : List Record) (now : Int) : List Record :=
  records.filter (fun r => toDateKey r.timestamp == toDateKey (some now))

/-- The report payload built by the reports route (server.js:294-301). -/
structure Report where
  type : String
  period : String
  totalRecords : Nat
  signIns : Nat
  signOuts : Nat
  records : List Record
deriving DecidableEq, Repr

/-- Models `app.get('/api/reports/:type')` (server.js:263-307): a switch over
the type string with cases `daily`, `weekly`, `monthly` and a default that
answers 400 `Invalid report type`.  There is no `custom` case and the route
takes no bounds. -/
def getWindowReport (attendance : List Record) (ty : String) (now : Int) :
    Except String Report :=
  let mk : List Record → Except String Report := fun filtered =>
    Except.ok
      { type := ty, period := ty, totalRecords := filtered.length,
        signIns := (filtered.filter (fun r => r.action == "sign-in")).length,
        signOuts := (filtered.filter (fun r => r.action == "sign-out")).length,
        records := filtered }
  if ty = "daily" then mk (dailyFilter attendance now)
  else if ty = "weekly" then mk (weeklyFilter attendance now)
  else if ty = "monthly" then mk (monthlyFilter attendance now)
  else Except.error "Invalid report type"

/-- One step of the breakdown loops (`dashboard-charts.js:465-486`,
`part_000:89-110`): look up the key in the object, create `{signIns: 0,
signOuts: 0}` when absent, then increment `signIns` when the action is
`sign-in` and `signOuts` for every other action.  The object is modelled as an
association list in property-creation (insertion) order. -/
def bumpPair {κ : Type} [BEq κ] (m : List (κ × Nat × Nat)) (k : κ)
    (isIn : Bool) : List (κ × Nat × Nat) :=
  match m with
  | [] => [(k, if isIn then (1, 0) else (0, 1))]
  | e :: rest =>
    if e.1 == k then
      (e.1, if isIn then (e.2.1 + 1, e.2.2) else (e.2.1, e.2.2 + 1)) :: rest
    else
      e :: bumpPair rest k isIn

/-- Sum of both counters over all buckets of a breakdown object. -/
def pairTotal {κ : Type} (m : List (κ × Nat × Nat)) : Nat :=
  (m.map (fun e => e.2.1 + e.2.2)).sum

/-- Models `getDailyBreakdown` (dashboard-charts.js:465-475) and the identical
daily loop of `calculateAnalytics` (part_000:89-96): buckets keyed by
`toDateString()` of each record's timestamp ("Invalid Date" = `none`). -/
def getDailyBreakdown (records : List Record) : List (Option Nat × Nat × Nat) :=
  records.foldl
    (fun m r => bumpPair m (toDateKey r.timestamp) (r.action == "sign-in")) []

/-- Models `getUserBreakdown` (dashboard-charts.js:477-486) and the user loop
of `calculateAnalytics` (part_000:104-110): buckets keyed by username. -/
def getUserBreakdown (records : List Record) : List (String × Nat × Nat) :=
  records.foldl (fun m r => bumpPair m r.username (r.action == "sign-in")) []

/-- Number of records whose parsed hour is `k` (`none` = the NaN hour coming
from an unparseable timestamp). -/
def hourCount (records : List Record) (k : Option Nat) : Nat :=
  records.countP (fun r => getHours r.timestamp == k)

/-- Models `Object.entries` of the hourly-breakdown object built by
`getHourlyBreakdown` (dashboard-charts.js:456-463), by `calculateAnalytics`
(part_000:98-102) and by `calculatePeakHours` (part_002:509-515): each record
increments the bucket of its `getHours()` value.  A JavaScript object
enumerates its integer-like keys (the hours 0-23) in ascending numeric order
first and its plain string keys (here only `"NaN"`, from invalid timestamps)
afterwards in insertion order, so the entry list is the ascending non-empty
hour buckets followed by the NaN bucket when present. -/
def getHourlyBreakdown (records : List Record) : List (Option Nat × Nat) :=
  (((List.range 24).filter (fun h => hourCount records (some h) != 0)).map
      (fun h => (some h, hourCount records (some h))))
    ++ (if hourCount records none != 0 then [(none, hourCount records none)]
        else [])

/-- Stable insertion of `x` into `l` under the comparator `le`: `x` is placed
before the first element it compares less-or-equal to, hence before later
elements it ties with. -/
def jsSortInsert {α : Type} (le : α → α → Bool) (x : α) : List α → List α
  | [] => [x]
  | y :: t => if le x y then x :: y :: t else y :: jsSortInsert le x t

/-- Models `Array.prototype.sort(cmp)`: sorting with a comparator is required
to be stable (ES2019), and every stable sort produces the same output, so a
stable insertion sort is a faithful executable model. -/
def jsSort {α : Type} (le : α → α → Bool) : List α → List α
  | [] => []
  | x :: t => jsSortInsert le x (jsSort le t)

/-- The comparator `([,a],[,b]) => b - a` used on breakdown entries
(part_002:518, dashboard-charts.js:217, part_000:114): entry `x` may precede
entry `y` exactly when its count is at least `y`'s. -/
def cntLe (x y : Option Nat × Nat) : Bool := y.2 ≤ x.2

/-- Top-`n` cut of the sorted hourly entries, the common shape of
`calculatePeakHours` (part_002:509-521, `slice(0, 5)`), `createPeakHoursChart`
(dashboard-charts.js:211-249, `slice(0, 8)`) and `calculateAnalytics`
(part_000:112-116, `slice(0, 3)`). -/
def peakHoursTop (records : List Record) (n : Nat) : List (Option Nat × Nat) :=
  (jsSort cntLe (getHourlyBreakdown records)).take n

/-- Models `calculatePeakHours` (part_002:509-521): top five hour buckets. -/
def calculatePeakHours (records : List Record) : List (Option Nat × Nat) :=
  peakHoursTop records 5

/-- The records the anomaly scan averages over: `records.filter(r => r.action
=== 'sign-in')` (part_002:540-542). -/
def signInRecords (records : List Record) : List Record :=
  records.filter (fun r => r.action == "sign-in")

/-- The sign-in hour list of `detectAnomalies` (part_002:540-542); an invalid
timestamp contributes NaN (`none`). -/
def signInHours (records : List Record) : List (Option Nat) :=
  (signInRecords records).map (fun r => getHours r.timestamp)

/-- JavaScript addition with NaN propagation. -/
def jsAdd (a b : Option Nat) : Option Nat :=
  match a, b with
  | some x, some y => some (x + y)
  | _, _ => none

/-- Models `signInHours.reduce((a, b) => a + b, 0)`. -/
def jsSum (l : List (Option Nat)) : Option Nat := l.foldl jsAdd (some 0)

/-- Models `avgSignInHour` (part_002:544): the mean of the sign-in hours, NaN
(`none`) when the list is empty (0/0) or contains a NaN hour. -/
def avgSignInHour (records : List Record) : Option Rat :=
  match jsSum (signInHours records), (signInHours records).length with
  | some s, n + 1 => some ((s : Rat) / ((n + 1 : Nat) : Rat))
  | _, _ => none

/-- Executable absolute value on rationals, modelling `Math.abs`. -/
def ratAbs (q : Rat) : Rat := if q < 0 then -q else q

/-- The flag test of `detectAnomalies` (part_002:546-557): only `sign-in`
records are examined, and `Math.abs(hour - avg) > 3` is `false` whenever the
hour or the average is NaN. -/
def anomalyFlag (avg : Option Rat) (r : Record) : Bool :=
  r.action == "sign-in" &&
    (match getHours r.timestamp, avg with
     | some h, some a => ratAbs ((h : Rat) - a) > 3
     | _, _ => false)

/-- Models `SuperDatabase.detectAnomalies` (part_002:536-560), returning the
flagged records (the `record` field of the pushed anomaly objects; the
human-readable `message` string is presentation only). -/
def detectAnomalies (records : List Record) : List Record :=
  records.filter (fun r => anomalyFlag (avgSignInHour records) r)

/-- Models `recordDate >= startDate` where both sides come from `new Date`:
`false` when either side is an Invalid Date (NaN comparison). -/
def jsGeD (t bound : JSDate) : Bool :=
  match t, bound with
  | some a, some b => b ≤ a
  | _, _ => false

/-- Models `recordDate <= endDate` with the same NaN semantics. -/
def jsLeD (t bound : JSDate) : Bool :=
  match t, bound with
  | some a, some b => a ≤ b
  | _, _ => false

/-- The date-range filter of `gatherReportData` (part_000:50-57): applied only
when a `dateRange` object is supplied, keeping records with
`recordDate >= start && recordDate <= end`. -/
def filterByDateRange (records : List Record)
    (dateRange : Option (JSDate × JSDate)) : List Record :=
  match dateRange with
  | none => records
  | some (s, e) =>
    records.filter (fun r => jsGeD r.timestamp s && jsLeD r.timestamp e)

/-- The report payload of `gatherReportData` (part_000:66-73), restricted to
the fields the claims are about (the analytics block is modelled separately). -/
structure ReportData where
  type : String
  records : List Record
  totalRecords : Nat
deriving DecidableEq, Repr

/-- Models `gatherReportData` (part_000:40-74): it never fails, whatever the
`type` string is; it filters by the date range when one is supplied and by the
user list when a non-empty one is supplied. -/
def gatherReportData (records : List Record) (ty : String)
    (dateRange : Option (JSDate × JSDate)) (users : Option (List String)) :
    ReportData :=
  let r1 := filterByDateRange records dateRange
  let r2 :=
    match users with
    | some us =>
      if us.length > 0 then r1.filter (fun r => us.contains r.username) else r1
    | none => r1
  { type := ty, records := r2, totalRecords := r2.length }

/-! Helper lemmas about the breakdown fold. -/

theorem pairTotal_bumpPair {κ : Type} [BEq κ] (m : List (κ × Nat × Nat))
    (k : κ) (b : Bool) : pairTotal (bumpPair m k b) = pairTotal m + 1 := by
  induction m with
  | nil => cases b <;> simp [bumpPair, pairTotal]
  | cons e rest ih =>
    by_cases h : (e.1 == k) = true
    · cases b <;> simp [bumpPair, h, pairTotal] <;> omega
    · simp only [bumpPair, h, Bool.false_eq_true, if_false, pairTotal,
        List.map_cons, List.sum_cons] at ih ⊢
      omega

theorem pairTotal_foldl_bump {κ : Type} [BEq κ] (f : Record → κ)
    (g : Record → Bool) :
    ∀ (l : List Record) (m : List (κ × Nat × Nat)),
      pairTotal (l.foldl (fun m r => bumpPair m (f r) (g r)) m)
        = pairTotal m + l.length := by
  intro l
  induction l with
  | nil => simp
  | cons r t ih =>
    intro m
    simp only [List.foldl_cons, List.length_cons, ih, pairTotal_bumpPair]
    omega

/-- C5: for every event sequence `E`, the `signIns` and `signOuts` counters of
`breakdownByDay(E)` sum to `|E|`: each event increments exactly one counter of
exactly one date bucket (malformed timestamps land in the "Invalid Date"
bucket and non-`sign-in` actions in `signOuts`, so nothing is lost). -/
theorem daily_breakdown_counts_sum_to_length (records : List Record) :
    pairTotal (getDailyBreakdown records) = records.length := by
  simpa [pairTotal] using
    pairTotal_foldl_bump (fun r => toDateKey r.timestamp)
      (fun r => r.action == "sign-in") records []

/-- C9: the productivity score is `min(75 + min(c * 2, 25), 100)`, always lies
in `[75, 100]`, and is monotone in the today-record count. -/
theorem productivity_score_formula_range_monotone (c d : Nat) :
    calculateProductivityScore c = min (75 + min (c * 2) 25) 100 ∧
    75 ≤ calculateProductivityScore c ∧
    calculateProductivityScore c ≤ 100 ∧
    (c ≤ d → calculateProductivityScore c ≤ calculateProductivityScore d) := by
  refine ⟨rfl, ?_, ?_, fun h => ?_⟩ <;> (simp only [calculateProductivityScore]; omega)

/-- Witness for C9 at `c = 3 ≤ d = 5`. -/
theorem productivity_score_witness :
    calculateProductivityScore 3 = min (75 + min (3 * 2) 25) 100 ∧
    75 ≤ calculateProductivityScore 3 ∧
    calculateProductivityScore 3 ≤ 100 ∧
    calculateProductivityScore 3 ≤ calculateProductivityScore 5 :=
  ⟨(productivity_score_formula_range_monotone 3 5).1,
   (productivity_score_formula_range_monotone 3 5).2.1,
   (productivity_score_formula_range_monotone 3 5).2.2.1,
   (productivity_score_formula_range_monotone 3 5).2.2.2 (by decide)⟩

/-- C4: appending an event and immediately fetching yields the old ledger with
the new record at the end; when the assigned id is fresh (the spec's id
uniqueness invariant — `Date.now()` of the creating request), the new record
occurs exactly once, in the last position, with all prior events before it. -/
theorem append_then_fetch_all (ledger : List Record) (now userId : Int)
    (username action : String) (hfresh : ∀ e ∈ ledger, e.id ≠ now) :
    fetchAll (recordEvent ledger now userId username action).2
        = ledger ++ [(recordEvent ledger now userId username action).1] ∧
    (recordEvent ledger now userId username action).2.count
        (recordEvent ledger now userId username action).1 = 1 ∧
    (recordEvent ledger now userId username action).2.getLast?
        = some (recordEvent ledger now userId username action).1 := by
  refine ⟨rfl, ?_, ?_⟩
  · have hnot : (recordEvent ledger now userId username action).1 ∉ ledger := by
      intro hmem
      exact hfresh _ hmem rfl
    have hsplit : (recordEvent ledger now userId username action).2
        = ledger ++ [(recordEvent ledger now userId username action).1] := rfl
    rw [hsplit, List.count_append, List.count_eq_zero.mpr hnot]
    simp
  · simp [recordEvent, List.getLast?_concat]

/-- A pre-existing ledger entry used by the C4 witness. -/
def priorEvent : Record :=
  { id := 1, userId := 1, username := "alice", action := "sign-in",
    timestamp := some 1, location := "Office" }

/-- Witness for C4: a one-event ledger and a fresh id. -/
theorem append_then_fetch_all_witness :
    fetchAll (recordEvent [priorEvent] 2 1 "alice" "sign-out").2
        = [priorEvent] ++ [(recordEvent [priorEvent] 2 1 "alice" "sign-out").1] ∧
    (recordEvent [priorEvent] 2 1 "alice" "sign-out").2.count
        (recordEvent [priorEvent] 2 1 "alice" "sign-out").1 = 1 ∧
    (recordEvent [priorEvent] 2 1 "alice" "sign-out").2.getLast?
        = some (recordEvent [priorEvent] 2 1 "alice" "sign-out").1 :=
  append_then_fetch_all [priorEvent] 2 1 "alice" "sign-out" (by decide)

/-- A NaN mean makes every anomaly comparison false. -/
theorem anomalyFlag_none (r : Record) : anomalyFlag none r = false := by
  unfold anomalyFlag
  cases hg : getHours r.timestamp <;> simp

/-- C10: with no sign-in events the mean sign-in hour is `0/0 = NaN`, every
NaN comparison is false, so `detectAnomalies` flags nothing and returns `[]`
instead of failing. -/
theorem detect_anomalies_no_signins (records : List Record)
    (h : signInRecords records = []) : detectAnomalies records = [] := by
  have h1 : signInHours records = [] := by simp [signInHours, h]
  have havg : avgSignInHour records = none := by
    unfold avgSignInHour
    rw [h1]
    decide
  rw [detectAnomalies, havg]
  simp [anomalyFlag_none]

/-- An all-sign-out record used by the C10 witness. -/
def onlySignOut : Record :=
  { id := 1, userId := 1, username := "bob", action := "sign-out",
    timestamp := some 0, location := "Office" }

/-- Witness for C10: an all-sign-out ledger produces no anomalies. -/
theorem detect_anomalies_no_signins_witness :
    detectAnomalies [onlySignOut] = [] :=
  detect_anomalies_no_signins [onlySignOut] (by decide)

/-- Unfolding of the `>=` test against a concrete millisecond bound. -/
theorem jsGeMs_iff (t : JSDate) (b : Int) :
    jsGeMs t b = true ↔ ∃ ms, t = some ms ∧ b ≤ ms := by
  cases t <;> simp [jsGeMs]

/-- C8: the weekly window is exactly the set of records whose parsed timestamp
is `>= now - 7 days`: a record dated exactly 7 days before `now` is kept
(inclusive bound) and one dated exactly 8 days before `now` is dropped. -/
theorem weekly_window_boundary (records : List Record) (now : Int) :
    (∀ r : Record, r ∈ weeklyFilter records now ↔
        r ∈ records ∧ ∃ ms, r.timestamp = some ms ∧ now - 7 * msPerDay ≤ ms) ∧
    (∀ r ∈ records, r.timestamp = some (now - 7 * msPerDay) →
        r ∈ weeklyFilter records now) ∧
    (∀ r : Record, r.timestamp = some (now - 8 * msPerDay) →
        r ∉ weeklyFilter records now) := by
  have hmem : ∀ r : Record, r ∈ weeklyFilter records now ↔
      r ∈ records ∧ ∃ ms, r.timestamp = some ms ∧ now - 7 * msPerDay ≤ ms := by
    intro r
    rw [weeklyFilter, List.mem_filter, jsGeMs_iff]
  refine ⟨hmem, ?_, ?_⟩
  · intro r hr hts
    exact (hmem r).mpr ⟨hr, now - 7 * msPerDay, hts, le_refl _⟩
  · intro r hts hmem'
    obtain ⟨-, ms, hms, hle⟩ := (hmem r).mp hmem'
    rw [hts] at hms
    have h8 : now - 8 * msPerDay = ms := Option.some.inj hms
    have hD : msPerDay = 86400000 := rfl
    omega

/-- A record dated exactly 7 days before the witness clock `10 * msPerDay`. -/
def sevenDaysOld : Record :=
  { id := 1, userId := 1, username := "alice", action := "sign-in",
    timestamp := some (3 * msPerDay), location := "Office" }

/-- A record dated exactly 8 days before the witness clock `10 * msPerDay`. -/
def eightDaysOld : Record :=
  { id := 2, userId := 1, username := "bob", action := "sign-in",
    timestamp := some (2 * msPerDay), location := "Office" }

/-- Witness for C8: with `now = 10 * msPerDay`, the 7-day-old record is kept
and the 8-day-old record is dropped. -/
theorem weekly_window_boundary_witness :
    sevenDaysOld ∈ weeklyFilter [sevenDaysOld, eightDaysOld] (10 * msPerDay) ∧
    eightDaysOld ∉ weeklyFilter [sevenDaysOld, eightDaysOld] (10 * msPerDay) :=
  ⟨(weekly_window_boundary [sevenDaysOld, eightDaysOld] (10 * msPerDay)).2.1
      sevenDaysOld (by decide) (by decide),
   (weekly_window_boundary [sevenDaysOld, eightDaysOld] (10 * msPerDay)).2.2
      eightDaysOld (by decide)⟩

/-- C1: the attendance route performs no validation of `action` — for any
action string (here `"dance"`) it appends the record and returns it, while the
repository's own validation rules (`SuperDatabase.validationRules.attendance`)
reject exactly that record with an enum error. -/
theorem record_event_skips_action_validation :
    (∀ (ledger : List Record) (now userId : Int) (username action : String),
        (recordEvent ledger now userId username action).2
          = ledger ++ [(recordEvent ledger now userId username action).1] ∧
        (recordEvent ledger now userId username action).1.action = action) ∧
    (recordEvent [] 1000 1 "alice" "dance").2
        = [(recordEvent [] 1000 1 "alice" "dance").1] ∧
    validateAttendance (recordEvent [] 1000 1 "alice" "dance").1
        = ["action must be one of: sign-in, sign-out"] := by
  exact ⟨fun _ _ _ _ _ => ⟨rfl, rfl⟩, rfl, by decide⟩

/-- C3 counterexample: contrary to the claim, a `custom` report request does
not succeed — the server's report switch has no `custom` case, so it falls to
the default branch and fails, bounds or no bounds (the route does not even
accept bounds). -/
theorem custom_window_fails :
    getWindowReport [] "custom" 0 = Except.error "Invalid report type" := rfl

/-- C3 amended: the server report route succeeds exactly on
`{daily, weekly, monthly}` and fails with `Invalid report type` on everything
else, including `custom`; the client-side `gatherReportData` never fails for
any type string: with a parseable `[start, end]` range it filters by the
inclusive bounds, and with no range it returns all records. -/
theorem window_report_taxonomy (records : List Record) (ty : String)
    (now s e : Int) :
    ((∃ rep, getWindowReport records ty now = Except.ok rep) ↔
        ty = "daily" ∨ ty = "weekly" ∨ ty = "monthly") ∧
    getWindowReport records "custom" now = Except.error "Invalid report type" ∧
    (gatherReportData records ty (some (some s, some e)) none).records
      = records.filter (fun r =>
          match r.timestamp with
          | some ms => decide (s ≤ ms) && decide (ms ≤ e)
          | none => false) ∧
    (gatherReportData records ty none none).records = records := by
  refine ⟨?_, rfl, ?_, rfl⟩
  · unfold getWindowReport
    by_cases h1 : ty = "daily" <;> by_cases h2 : ty = "weekly" <;>
      by_cases h3 : ty = "monthly" <;> simp [h1, h2, h3]
  · have hred : (gatherReportData records ty (some (some s, some e)) none).records
        = records.filter
            (fun r => jsGeD r.timestamp (some s) && jsLeD r.timestamp (some e)) := rfl
    rw [hred]
    apply List.filter_congr
    intro r _
    cases ht : r.timestamp <;> simp [jsGeD, jsLeD, ht]

/-! Counting lemmas for the hourly breakdown. -/

theorem sum_map_add {α : Type} (f g : α → Nat) :
    ∀ l : List α, (l.map (fun x => f x + g x)).sum = (l.map f).sum + (l.map g).sum := by
  intro l
  induction l with
  | nil => simp
  | cons a t ih => simp [ih]; omega

theorem sum_indicator : ∀ n v : Nat, v < n →
    ((List.range n).map (fun h => if v = h then 1 else 0)).sum = 1 := by
  intro n
  induction n with
  | zero => omega
  | succ n ih =>
    intro v hv
    rw [List.range_succ, List.map_append, List.sum_append]
    rcases Nat.lt_or_ge v n with h | h
    · have hlast : v ≠ n := by omega
      simp [ih v h, hlast]
    · have hveq : v = n := by omega
      rw [hveq]
      have hzero : ((List.range n).map (fun h => if n = h then 1 else 0)).sum = 0 := by
        apply List.sum_eq_zero
        intro x hx
        obtain ⟨h', hh', rfl⟩ := List.mem_map.mp hx
        have hlt : h' < n := List.mem_range.mp hh'
        simp
        omega
      simp [hzero]

theorem hourCount_cons (r : Record) (rs : List Record) (k : Option Nat) :
    hourCount (r :: rs) k
      = hourCount rs k + (if getHours r.timestamp = k then 1 else 0) := by
  simp [hourCount, List.countP_cons]

theorem getHours_lt_24 {d : JSDate} {v : Nat} (h : getHours d = some v) : v < 24 := by
  cases d with
  | none => simp [getHours] at h
  | some ms =>
    simp [getHours] at h
    omega

theorem hour_total_aux : ∀ records : List Record,
    ((List.range 24).map (fun h => hourCount records (some h))).sum
        + hourCount records none = records.length := by
  intro records
  induction records with
  | nil => simp [hourCount]
  | cons r rs ih =>
    simp only [hourCount_cons, List.length_cons]
    rw [sum_map_add (fun h => hourCount rs (some h))
          (fun h => if getHours r.timestamp = some h then 1 else 0)]
    cases hg : getHours r.timestamp with
    | none =>
      have hz : ((List.range 24).map
          (fun h => if (none : Option Nat) = some h then 1 else 0)).sum = 0 := by
        apply List.sum_eq_zero
        intro x hx
        obtain ⟨h', -, rfl⟩ := List.mem_map.mp hx
        simp
      simp [hz]
      omega
    | some v =>
      have hv : v < 24 := getHours_lt_24 hg
      have hone : ((List.range 24).map
          (fun h => if (some v : Option Nat) = some h then 1 else 0)).sum = 1 := by
        simpa using sum_indicator 24 v hv
      simp only [hone, reduceCtorEq, if_false]
      omega

theorem sum_filter_ne_zero (f : Nat → Nat) :
    ∀ l : List Nat, ((l.filter (fun h => f h != 0)).map f).sum = (l.map f).sum := by
  intro l
  induction l with
  | nil => simp
  | cons a t ih =>
    by_cases h : f a = 0
    · simp [h, ih]
    · simp [h, ih]

/-- Sum of all bucket counts of the hourly breakdown. -/
theorem hourly_breakdown_total (records : List Record) :
    ((getHourlyBreakdown records).map (fun e => e.2)).sum = records.length := by
  unfold getHourlyBreakdown
  rw [List.map_append, List.sum_append, List.map_map]
  have h1 : (((List.range 24).filter
        (fun h => hourCount records (some h) != 0)).map
          ((fun e : Option Nat × Nat => e.2) ∘ fun h => (some h, hourCount records (some h)))).sum
      = ((List.range 24).map (fun h => hourCount records (some h))).sum := by
    exact sum_filter_ne_zero (fun h => hourCount records (some h)) (List.range 24)
  rw [h1]
  by_cases h2 : hourCount records none = 0
  · simp [h2]
    have := hour_total_aux records
    omega
  · have h2' : (hourCount records none != 0) = true := by simpa using h2
    simp only [h2', if_true, List.map_cons, List.map_nil, List.sum_cons, List.sum_nil]
    have := hour_total_aux records
    omega

/-- The NaN bucket counts exactly the unparseable-timestamp records. -/
theorem hourCount_none_eq (records : List Record) :
    hourCount records none = records.countP (fun r => r.timestamp.isNone) := by
  unfold hourCount
  apply List.countP_congr
  intro r _
  cases ht : r.timestamp <;> simp [getHours, ht]

/-- A valid 9-o'clock sign-in used by the C2 counterexample and witness. -/
def nineOClock : Record :=
  { id := 1, userId := 1, username := "u1", action := "sign-in",
    timestamp := some (9 * msPerHour), location := "Office" }

/-- A record whose timestamp failed to parse (Invalid Date). -/
def malformedRecord : Record :=
  { id := 2, userId := 2, username := "u2", action := "sign-in",
    timestamp := none, location := "Office" }

/-- C2 counterexample: with one valid and one malformed record, the hourly
breakdown does NOT exclude the malformed record — it lands in a NaN bucket
and the totals still count it (2, not the 1 the claim's exclusion semantics
would give). -/
theorem malformed_record_not_excluded :
    getHourlyBreakdown [nineOClock, malformedRecord] = [(some 9, 1), (none, 1)] ∧
    ((getHourlyBreakdown [nineOClock, malformedRecord]).map (fun e => e.2)).sum = 2 ∧
    ((getHourlyBreakdown [nineOClock, malformedRecord]).map (fun e => e.2)).sum ≠ 1 := by
  refine ⟨by decide, by decide, by decide⟩

/-- C2 amended: no aggregation operation throws on a malformed timestamp (all
are total functions), but the breakdowns do not exclude such records either:
the hourly breakdown counts them in a NaN bucket, the daily and user
breakdowns count them like any other record, so every total equals the full
record count; only the window filters drop records with unparseable
timestamps (their NaN date comparisons are false). -/
theorem aggregation_totals_include_malformed (records : List Record) (now : Int) :
    ((getHourlyBreakdown records).map (fun e => e.2)).sum = records.length ∧
    hourCount records none = records.countP (fun r => r.timestamp.isNone) ∧
    pairTotal (getDailyBreakdown records) = records.length ∧
    pairTotal (getUserBreakdown records) = records.length ∧
    (∀ r ∈ weeklyFilter records now, r.timestamp.isSome) ∧
    (∀ r ∈ monthlyFilter records now, r.timestamp.isSome) ∧
    (∀ r ∈ dailyFilter records now, r.timestamp.isSome) := by
  refine ⟨hourly_breakdown_total records, hourCount_none_eq records,
    daily_breakdown_counts_sum_to_length records, ?_, ?_, ?_, ?_⟩
  · simpa [pairTotal] using
      pairTotal_foldl_bump (fun r => r.username)
        (fun r => r.action == "sign-in") records []
  · intro r hr
    have := (List.mem_filter.mp hr).2
    cases ht : r.timestamp <;> simp [jsGeMs, ht] at this ⊢
  · intro r hr
    have := (List.mem_filter.mp hr).2
    cases ht : r.timestamp <;> simp [jsGeMs, ht] at this ⊢
  · intro r hr
    have := (List.mem_filter.mp hr).2
    cases ht : r.timestamp <;> simp [toDateKey, ht] at this ⊢

/-- Witness for C2's amended statement at a concrete mixed ledger. -/
theorem aggregation_totals_include_malformed_witness :
    ((getHourlyBreakdown [nineOClock, malformedRecord]).map (fun e => e.2)).sum
        = [nineOClock, malformedRecord].length ∧
    nineOClock.timestamp.isSome :=
  ⟨(aggregation_totals_include_malformed [nineOClock, malformedRecord]
      (9 * msPerHour)).1,
   (aggregation_totals_include_malformed [nineOClock, malformedRecord]
      (9 * msPerHour)).2.2.2.2.1 nineOClock (by decide)⟩

/-! The anomaly-detection mean. -/

theorem jsSum_all_some :
    ∀ (l : List (Option Nat)) (acc : Nat), (∀ x ∈ l, x.isSome) →
      l.foldl jsAdd (some acc) = some (acc + (l.filterMap id).sum) := by
  intro l
  induction l with
  | nil => simp
  | cons a t ih =>
    intro acc h
    obtain ⟨v, rfl⟩ := Option.isSome_iff_exists.mp (h _ (List.mem_cons_self _ _))
    have ht : ∀ x ∈ t, x.isSome := fun x hx => h x (List.mem_cons_of_mem _ hx)
    have hfm : (some v :: t).filterMap id = v :: t.filterMap id := by simp
    rw [List.foldl_cons, show jsAdd (some acc) (some v) = some (acc + v) from rfl,
        ih (acc + v) ht, hfm, List.sum_cons]
    congr 1
    omega

theorem ratAbs_abs (q : Rat) : ratAbs q = |q| := by
  by_cases h : q < 0
  · rw [ratAbs, if_pos h, abs_of_neg h]
  · rw [ratAbs, if_neg h, abs_of_nonneg (le_of_not_lt h)]

theorem anomalyFlag_some {m : Rat} {r : Record} :
    anomalyFlag (some m) r = true ↔
      r.action = "sign-in" ∧
        ∃ h, getHours r.timestamp = some h ∧ |(h : Rat) - m| > 3 := by
  unfold anomalyFlag
  cases hg : getHours r.timestamp with
  | none => simp
  | some h => simp [ratAbs_abs]

/-- A 9-o'clock sign-in with id `i` — four of these make the spec scenario. -/
def nineAt (i : Int) : Record :=
  { id := i, userId := 1, username := "u", action := "sign-in",
    timestamp := some (9 * msPerHour), location := "Office" }

/-- The 2-o'clock outlier sign-in of the spec scenario `[9,9,9,9,2]`. -/
def outlierAtTwo : Record :=
  { id := 5, userId := 1, username := "u", action := "sign-in",
    timestamp := some (2 * msPerHour), location := "Office" }

/-- The spec scenario ledger: sign-ins at hours `[9, 9, 9, 9, 2]`. -/
def scenarioRecords : List Record :=
  [nineAt 1, nineAt 2, nineAt 3, nineAt 4, outlierAtTwo]

theorem scenario_avg : avgSignInHour scenarioRecords = some ((38 : Rat) / 5) := by
  have h1 : jsSum (signInHours scenarioRecords) = some 38 := by decide
  have h2 : (signInHours scenarioRecords).length = 5 := by decide
  unfold avgSignInHour
  rw [h1, h2]
  norm_num

theorem scenario_nine_not_flagged (i : Int) :
    anomalyFlag (some ((38 : Rat) / 5)) (nineAt i) = false := by
  have hg : getHours (nineAt i).timestamp = some 9 := rfl
  unfold anomalyFlag
  rw [hg]
  norm_num [nineAt, ratAbs]

theorem scenario_two_flagged :
    anomalyFlag (some ((38 : Rat) / 5)) outlierAtTwo = true := by
  have hg : getHours outlierAtTwo.timestamp = some 2 := rfl
  unfold anomalyFlag
  rw [hg]
  norm_num [outlierAtTwo, ratAbs]

theorem scenario_flags_only_outlier :
    detectAnomalies scenarioRecords = [outlierAtTwo] := by
  unfold detectAnomalies
  rw [scenario_avg]
  rw [show scenarioRecords
        = [nineAt 1, nineAt 2, nineAt 3, nineAt 4, outlierAtTwo] from rfl]
  simp [List.filter_cons, scenario_nine_not_flagged, scenario_two_flagged]

/-- C7: when at least one sign-in exists and every sign-in timestamp parses,
`detectAnomalies` computes the mean sign-in hour and flags exactly the
sign-in records whose hour deviates from it by more than 3; sign-outs are
never flagged; on the scenario hours `[9,9,9,9,2]` only the hour-2 record is
flagged. -/
theorem detect_anomalies_characterization (records : List Record)
    (hex : signInRecords records ≠ [])
    (hval : ∀ r ∈ records, r.action = "sign-in" → (getHours r.timestamp).isSome) :
    ∃ m : Rat,
      avgSignInHour records = some m ∧
      m = ((((signInHours records).filterMap id).sum : Nat) : Rat)
            / (((signInRecords records).length : Nat) : Rat) ∧
      (∀ r : Record, r ∈ detectAnomalies records ↔
          r ∈ records ∧ r.action = "sign-in" ∧
          ∃ h, getHours r.timestamp = some h ∧ |(h : Rat) - m| > 3) ∧
      (∀ r ∈ detectAnomalies records, r.action = "sign-in") ∧
      detectAnomalies scenarioRecords = [outlierAtTwo] := by
  have hvalh : ∀ x ∈ signInHours records, x.isSome := by
    intro x hx
    obtain ⟨r, hr, rfl⟩ := List.mem_map.mp hx
    have hr' := List.mem_filter.mp hr
    exact hval r hr'.1 (by simpa using hr'.2)
  have hsum : jsSum (signInHours records)
      = some ((signInHours records).filterMap id).sum := by
    simpa [jsSum] using jsSum_all_some (signInHours records) 0 hvalh
  have hlen : (signInHours records).length = (signInRecords records).length := by
    simp [signInHours]
  obtain ⟨n, hn⟩ : ∃ n, (signInRecords records).length = n + 1 := by
    cases hcase : signInRecords records with
    | nil => exact absurd hcase hex
    | cons a t => exact ⟨t.length, by simp⟩
  have havg : avgSignInHour records
      = some ((((signInHours records).filterMap id).sum : Nat)
          / (((signInRecords records).length : Nat) : Rat)) := by
    unfold avgSignInHour
    rw [hsum, hlen, hn]
  refine ⟨_, havg, rfl, ?_, ?_, scenario_flags_only_outlier⟩
  · intro r
    unfold detectAnomalies
    rw [havg, List.mem_filter, anomalyFlag_some]
  · intro r hr
    unfold detectAnomalies at hr
    rw [havg] at hr
    exact ((anomalyFlag_some.mp (List.mem_filter.mp hr).2)).1

/-- Witness for C7: the scenario ledger satisfies both hypotheses and flags
only the hour-2 sign-in. -/
theorem detect_anomalies_characterization_witness :
    detectAnomalies scenarioRecords = [outlierAtTwo] := by
  obtain ⟨m, -, -, -, -, hscen⟩ :=
    detect_anomalies_characterization scenarioRecords (by decide) (by decide)
  exact hscen

/-! Sorting machinery for the peak-hours ranking. -/

/-- Strict ordering of hourly-bucket keys as a JavaScript object enumerates
them: real hours ascending, the NaN key after every real hour. -/
def keyLtB : Option Nat → Option Nat → Bool
  | some i, some j => i < j
  | some _, none => true
  | none, _ => false

/-- Reflexive closure of `keyLtB`. -/
def keyLeB : Option Nat → Option Nat → Bool
  | some i, some j => i ≤ j
  | some _, none => true
  | none, some _ => false
  | none, none => true

/-- Count-descending order with enumeration order as the tie break: the total
order a stable count-descending sort realises on the entry list. -/
def tieLe (x y : Option Nat × Nat) : Bool :=
  decide (y.2 < x.2) || (y.2 == x.2 && keyLeB x.1 y.1)

/-- Strict version of `tieLe`: strictly fewer in `y`, or a tie broken by the
strictly earlier key (lower hour first, NaN last). -/
def tieLt (x y : Option Nat × Nat) : Bool :=
  decide (y.2 < x.2) || (y.2 == x.2 && keyLtB x.1 y.1)

theorem jsSortInsert_perm {α : Type} (le : α → α → Bool) (x : α) :
    ∀ l : List α, (jsSortInsert le x l).Perm (x :: l) := by
  intro l
  induction l with
  | nil => simp [jsSortInsert]
  | cons y t ih =>
    by_cases h : le x y = true
    · simp [jsSortInsert, h]
    · simp only [jsSortInsert, if_neg h]
      exact (ih.cons y).trans (List.Perm.swap x y t)

theorem jsSort_perm {α : Type} (le : α → α → Bool) :
    ∀ l : List α, (jsSort le l).Perm l := by
  intro l
  induction l with
  | nil => simp [jsSort]
  | cons x t ih =>
    simp only [jsSort]
    exact (jsSortInsert_perm le x (jsSort le t)).trans (ih.cons x)

theorem jsSortInsert_pairwise {α : Type} {le : α → α → Bool}
    (htr : ∀ a b c, le a b = true → le b c = true → le a c = true)
    (hto : ∀ a b, le a b = true ∨ le b a = true) (x : α) :
    ∀ {l : List α}, l.Pairwise (fun a b => le a b = true) →
      (jsSortInsert le x l).Pairwise (fun a b => le a b = true) := by
  intro l hl
  induction l with
  | nil => simp [jsSortInsert]
  | cons y t ih =>
    obtain ⟨hy, ht⟩ := List.pairwise_cons.mp hl
    by_cases h : le x y = true
    · simp only [jsSortInsert, if_pos h]
      refine List.pairwise_cons.mpr ⟨?_, hl⟩
      intro b hb
      rcases List.mem_cons.mp hb with rfl | hbt
      · exact h
      · exact htr x y b h (hy b hbt)
    · simp only [jsSortInsert, if_neg h]
      refine List.pairwise_cons.mpr ⟨?_, ih ht⟩
      intro b hb
      have hb' := (jsSortInsert_perm le x t).mem_iff.mp hb
      rcases List.mem_cons.mp hb' with rfl | hbt
      · rcases hto b y with h' | h'
        · exact absurd h' h
        · exact h'
      · exact hy b hbt

theorem jsSort_pairwise {α : Type} {le : α → α → Bool}
    (htr : ∀ a b c, le a b = true → le b c = true → le a c = true)
    (hto : ∀ a b, le a b = true ∨ le b a = true) :
    ∀ l : List α, (jsSort le l).Pairwise (fun a b => le a b = true) := by
  intro l
  induction l with
  | nil => simp [jsSort]
  | cons x t ih =>
    simp only [jsSort]
    exact jsSortInsert_pairwise htr hto x ih

theorem jsSortInsert_congr {α : Type} {le₁ le₂ : α → α → Bool} (x : α) :
    ∀ {l : List α}, (∀ b ∈ l, le₁ x b = le₂ x b) →
      jsSortInsert le₁ x l = jsSortInsert le₂ x l := by
  intro l h
  induction l with
  | nil => rfl
  | cons y t ih =>
    have hy := h y (List.mem_cons_self _ _)
    simp only [jsSortInsert]
    rw [hy]
    by_cases hc : le₂ x y = true
    · rw [if_pos hc, if_pos hc]
    · rw [if_neg hc, if_neg hc,
        ih (fun b hb => h b (List.mem_cons_of_mem _ hb))]

theorem keyLeB_of_keyLtB {a b : Option Nat} (h : keyLtB a b = true) :
    keyLeB a b = true := by
  rcases a with _ | i <;> rcases b with _ | j <;> simp_all [keyLtB, keyLeB] <;> omega

theorem keyLtB_ne {a b : Option Nat} (h : keyLtB a b = true) : a ≠ b := by
  rcases a with _ | i <;> rcases b with _ | j <;> simp_all [keyLtB] <;> omega

theorem keyLtB_of_keyLeB_ne {a b : Option Nat} (h : keyLeB a b = true)
    (hne : a ≠ b) : keyLtB a b = true := by
  rcases a with _ | i <;> rcases b with _ | j <;> simp_all [keyLtB, keyLeB] <;> omega

theorem keyLeB_total (a b : Option Nat) :
    keyLeB a b = true ∨ keyLeB b a = true := by
  rcases a with _ | i <;> rcases b with _ | j <;> simp [keyLeB] <;> omega

theorem keyLeB_trans {a b c : Option Nat} (h1 : keyLeB a b = true)
    (h2 : keyLeB b c = true) : keyLeB a c = true := by
  rcases a with _ | i <;> rcases b with _ | j <;> rcases c with _ | k <;>
    simp_all [keyLeB] <;> omega

theorem tieLe_total (x y : Option Nat × Nat) :
    tieLe x y = true ∨ tieLe y x = true := by
  unfold tieLe
  rcases Nat.lt_trichotomy x.2 y.2 with h | h | h
  · right
    simp [h]
  · rcases keyLeB_total x.1 y.1 with hk | hk
    · left
      simp [h, hk]
    · right
      simp [h, hk]
  · left
    simp [h]

theorem tieLe_trans (x y z : Option Nat × Nat) (hxy : tieLe x y = true)
    (hyz : tieLe y z = true) : tieLe x z = true := by
  simp only [tieLe, Bool.or_eq_true, Bool.and_eq_true, decide_eq_true_eq,
    beq_iff_eq] at hxy hyz ⊢
  rcases hxy with h1 | ⟨h1, hk1⟩ <;> rcases hyz with h2 | ⟨h2, hk2⟩
  · left; omega
  · left; omega
  · left; omega
  · right
    exact ⟨by omega, keyLeB_trans hk1 hk2⟩

theorem cntLe_total (x y : Option Nat × Nat) :
    cntLe x y = true ∨ cntLe y x = true := by
  simp only [cntLe, decide_eq_true_eq]
  omega

theorem cntLe_trans (x y z : Option Nat × Nat) (h1 : cntLe x y = true)
    (h2 : cntLe y z = true) : cntLe x z = true := by
  simp only [cntLe, decide_eq_true_eq] at h1 h2 ⊢
  omega

theorem cntLe_eq_tieLe_of_keyLt {x b : Option Nat × Nat}
    (hk : keyLtB x.1 b.1 = true) : cntLe x b = tieLe x b := by
  have hle := keyLeB_of_keyLtB hk
  unfold cntLe tieLe
  rw [hle, Bool.and_true]
  rcases Nat.lt_trichotomy b.2 x.2 with h | h | h
  · simp [h, Nat.le_of_lt h]
  · simp [h]
  · have h1 : ¬ (b.2 ≤ x.2) := by omega
    have h2 : ¬ (b.2 < x.2) := by omega
    have h3 : ¬ (b.2 = x.2) := by omega
    simp [h1, h2, h3]

theorem jsSort_cnt_eq_tie : ∀ {l : List (Option Nat × Nat)},
    l.Pairwise (fun a b => keyLtB a.1 b.1 = true) →
      jsSort cntLe l = jsSort tieLe l := by
  intro l h
  induction l with
  | nil => rfl
  | cons x t ih =>
    obtain ⟨hx, ht⟩ := List.pairwise_cons.mp h
    simp only [jsSort]
    rw [ih ht]
    apply jsSortInsert_congr
    intro b hb
    exact cntLe_eq_tieLe_of_keyLt (hx b ((jsSort_perm tieLe t).mem_iff.mp hb))

theorem hourly_entries_pairwise_keyLt (records : List Record) :
    (getHourlyBreakdown records).Pairwise (fun a b => keyLtB a.1 b.1 = true) := by
  unfold getHourlyBreakdown
  apply List.pairwise_append.mpr
  refine ⟨?_, ?_, ?_⟩
  · rw [List.pairwise_map]
    apply List.Pairwise.filter
    exact (List.pairwise_lt_range 24).imp (fun h => by simpa [keyLtB] using h)
  · by_cases h : (hourCount records none != 0) = true <;> simp [h]
  · intro a ha b hb
    by_cases h : (hourCount records none != 0) = true
    · rw [if_pos h] at hb
      obtain ⟨h', -, rfl⟩ := List.mem_map.mp ha
      simp only [List.mem_singleton] at hb
      rw [hb]
      rfl
    · rw [if_neg h] at hb
      exact absurd hb (List.not_mem_nil b)

theorem hourly_entries_pairwise_keyNe (records : List Record) :
    (getHourlyBreakdown records).Pairwise
      (fun a b : Option Nat × Nat => a.1 ≠ b.1) :=
  (hourly_entries_pairwise_keyLt records).imp (fun h => keyLtB_ne h)

theorem tieLt_of_tieLe_keyNe {x y : Option Nat × Nat} (h : tieLe x y = true)
    (hk : x.1 ≠ y.1) : tieLt x y = true := by
  simp only [tieLe, tieLt, Bool.or_eq_true, Bool.and_eq_true,
    decide_eq_true_eq, beq_iff_eq] at h ⊢
  rcases h with h | ⟨h1, h2⟩
  · left; exact h
  · right
    exact ⟨h1, keyLtB_of_keyLeB_ne h2 hk⟩

/-- C6: the top-`n` cut of the peak-hours ranking has at most `n` entries;
every returned count is at least every unreturned count; and the returned
list is strictly sorted by descending count with ties broken by the lower
hour first (the NaN bucket, when present, ties after every real hour). -/
theorem peak_hours_top_k (records : List Record) (n : Nat) :
    (peakHoursTop records n).length ≤ n ∧
    (∀ x ∈ peakHoursTop records n,
      ∀ y ∈ (jsSort cntLe (getHourlyBreakdown records)).drop n, y.2 ≤ x.2) ∧
    (peakHoursTop records n).Pairwise (fun x y => tieLt x y = true) := by
  refine ⟨List.length_take_le n _, ?_, ?_⟩
  · have hs : (jsSort cntLe (getHourlyBreakdown records)).Pairwise
        (fun a b => cntLe a b = true) :=
      jsSort_pairwise cntLe_trans cntLe_total _
    have hsplit := List.take_append_drop n (jsSort cntLe (getHourlyBreakdown records))
    rw [← hsplit] at hs
    have hcross := (List.pairwise_append.mp hs).2.2
    intro x hx y hy
    have hxy := hcross x hx y hy
    simpa [cntLe] using hxy
  · have heq : peakHoursTop records n
        = (jsSort tieLe (getHourlyBreakdown records)).take n := by
      unfold peakHoursTop
      rw [jsSort_cnt_eq_tie (hourly_entries_pairwise_keyLt records)]
    rw [heq]
    have h1 : (jsSort tieLe (getHourlyBreakdown records)).Pairwise
        (fun a b => tieLe a b = true) :=
      jsSort_pairwise tieLe_trans tieLe_total _
    have h2 : (jsSort tieLe (getHourlyBreakdown records)).Pairwise
        (fun a b : Option Nat × Nat => a.1 ≠ b.1) :=
      ((jsSort_perm tieLe _).pairwise_iff (fun h => h.symm)).mpr
        (hourly_entries_pairwise_keyNe records)
    have h3 := (h1.and h2).imp (fun h => tieLt_of_tieLe_keyNe h.1 h.2)
    exact List.Pairwise.sublist (List.take_sublist n _) h3

/-- Witness for C6 on hours `[9, 9, 2]` with `n = 1`: one entry returned and
its count `2` dominates the unreturned count `1`. -/
theorem peak_hours_top_k_witness :
    (peakHoursTop [nineAt 1, nineAt 2, outlierAtTwo] 1).length ≤ 1 ∧
    (1 : Nat) ≤ 2 :=
  ⟨(peak_hours_top_k [nineAt 1, nineAt 2, outlierAtTwo] 1).1,
   (peak_hours_top_k [nineAt 1, nineAt 2, outlierAtTwo] 1).2.1
      (some 9, 2) (by decide) (some 2, 1) (by decide)⟩

end Attendance
